import Mathlib

/-!
# EDA CLI — verification of the analysis pipeline and the `report` command

Shallow embedding of `src/homeworks/HW04/eda-cli/src/eda_cli/cli.py`.
The `cli.py` module imports the analysis functions (`summarize_dataset`,
`missing_table`, `correlation_matrix`, `top_categories`,
`compute_quality_flags`) from the repository module `eda_cli.core`, whose
source file is not present in the repository snapshot; those functions are
modelled here from the specification (each such definition carries a
doc comment starting with `Modelled from the spec:`).  The `report`
command itself (directory creation, load, the five analysis calls, the
quality gate, and the file writes of lines 67–123 of `cli.py`) is embedded
from the source as an event trace.
-/

namespace Eda

/-- Modelled from the spec: a cell value of a loaded Dataset is either a
number or a textual token (the loader parses delimited text; malformed
numeric tokens are treated as missing, so a cell the core ever sees is a
parsed number or a piece of text).  Boolean/datetime token inference is
not modelled: no claim depends on those dtype kinds. -/
inductive Value where
  | num (q : ℚ)
  | str (s : String)
  deriving DecidableEq, Repr

/-- A cell is a possibly-missing value (`none` is the missing marker). -/
abbrev Cell := Option Value

/-- Modelled from the spec: a named column, an ordered sequence of cells. -/
structure Column where
  name : String
  cells : List Cell
  deriving DecidableEq, Repr

/-- Modelled from the spec: a Dataset is an ordered sequence of named
columns with a fixed row count. -/
structure Dataset where
  nRows : ℕ
  cols : List Column
  deriving DecidableEq, Repr

/-- Well-formedness: every column has exactly `nRows` cells. -/
def WellFormed (d : Dataset) : Prop :=
  ∀ c ∈ d.cols, c.cells.length = d.nRows

instance (d : Dataset) : Decidable (WellFormed d) := by
  unfold WellFormed; infer_instance

/-- The non-missing values of a column, in dataset order. -/
def nonMissingVals (c : Column) : List Value :=
  c.cells.filterMap id

/-- The number of non-missing cells of a column. -/
def nonMissingCount (c : Column) : ℕ :=
  (nonMissingVals c).length

/-- The number of missing cells of a column. -/
def missingCount (c : Column) : ℕ :=
  c.cells.countP (fun x => x.isNone)

/-- The numeric values of a column (non-numeric cells count as missing). -/
def colRats (c : Column) : List ℚ :=
  c.cells.filterMap (fun x =>
    match x with
    | some (Value.num q) => some q
    | _ => none)

/-- Modelled from the spec: the closed dtype tag of a column. -/
inductive DtypeKind where
  | numeric
  | categorical
  | boolean
  | datetime
  | unknown
  deriving DecidableEq, Repr

/-- Is a value numeric? -/
def Value.isNum : Value → Bool
  | Value.num _ => true
  | Value.str _ => false

/-- Modelled from the spec: dtype classification.  A column with zero
non-missing values is `unknown`; if all non-missing values are numbers it
is `numeric`; otherwise it is `categorical` (boolean/datetime token
inference is not modelled — see `Value`). -/
def classifyDtype (c : Column) : DtypeKind :=
  let vs := nonMissingVals c
  if vs.isEmpty then DtypeKind.unknown
  else if vs.all Value.isNum then DtypeKind.numeric
  else DtypeKind.categorical

/-- The distinct elements of a list, in first-seen order. -/
def firstSeen {α : Type} [DecidableEq α] : List α → List α
  | [] => []
  | v :: vs => v :: (firstSeen vs).filter (fun w => w ≠ v)

/-- Count of distinct non-missing values of a column. -/
def uniqueCount (c : Column) : ℕ :=
  (firstSeen (nonMissingVals c)).length

/-- Pair each list element with an index, starting from `i`. -/
def withIndex {α : Type} (i : ℕ) : List α → List (α × ℕ)
  | [] => []
  | a :: as => (a, i) :: withIndex (i + 1) as

/-- Modelled from the spec: the ranking order of the Category Ranker —
descending by frequency, ties broken by first-seen order.  An element is
`((value, frequency), firstSeenIndex)`. -/
def rankLE {α : Type} (a b : (α × ℕ) × ℕ) : Prop :=
  b.1.2 < a.1.2 ∨ (a.1.2 = b.1.2 ∧ a.2 ≤ b.2)

instance {α : Type} : DecidableRel (rankLE (α := α)) := fun a b =>
  inferInstanceAs (Decidable (b.1.2 < a.1.2 ∨ (a.1.2 = b.1.2 ∧ a.2 ≤ b.2)))

instance {α : Type} : IsTotal ((α × ℕ) × ℕ) rankLE where
  total a b := by
    rcases lt_trichotomy a.1.2 b.1.2 with h | h | h
    · exact Or.inr (Or.inl h)
    · rcases Nat.le_total a.2 b.2 with h2 | h2
      · exact Or.inl (Or.inr ⟨h, h2⟩)
      · exact Or.inr (Or.inr ⟨h.symm, h2⟩)
    · exact Or.inl (Or.inl h)

instance {α : Type} : IsTrans ((α × ℕ) × ℕ) rankLE where
  trans a b c hab hbc := by
    rcases hab with h1 | ⟨h1, h1i⟩
    · rcases hbc with h2 | ⟨h2, _⟩
      · exact Or.inl (h2.trans h1)
      · exact Or.inl (h2 ▸ h1)
    · rcases hbc with h2 | ⟨h2, h2i⟩
      · exact Or.inl (h1 ▸ h2)
      · exact Or.inr ⟨h1.trans h2, h1i.trans h2i⟩

/-- Each distinct value paired with its frequency and its first-seen
index — the sort key of the Category Ranker. -/
def rankKeyed {α : Type} [DecidableEq α] (vs : List α) : List ((α × ℕ) × ℕ) :=
  (withIndex 0 (firstSeen vs)).map (fun p => ((p.1, vs.count p.1), p.2))

/-- Modelled from the spec: the full frequency ranking of a list of values:
each distinct value paired with its frequency, sorted descending by
frequency, ties broken by first-seen order. -/
def rankCategories {α : Type} [DecidableEq α] (vs : List α) : List (α × ℕ) :=
  (List.insertionSort rankLE (rankKeyed vs)).map (fun x => x.1)

/-- Modelled from the spec: per-column numeric descriptive statistics.
`sampleVariance` is the square of the sample standard deviation (the
standard deviation itself is its square root, an irrational number in
general; no claim refers to its numeric value, so the model stores the
exact rational square).  It is `none` (NaN) when fewer than two values
exist. -/
structure NumStats where
  minV : ℚ
  maxV : ℚ
  mean : ℚ
  sampleVariance : Option ℚ
  q25 : ℚ
  q50 : ℚ
  q75 : ℚ
  deriving DecidableEq, Repr

/-- Arithmetic mean of a list of rationals (0 for the empty list). -/
def listMean (vs : List ℚ) : ℚ :=
  vs.sum / vs.length

/-- Sample variance with `n - 1` denominator; `none` when `n < 2`. -/
def sampleVar (vs : List ℚ) : Option ℚ :=
  if vs.length < 2 then none
  else some ((vs.map (fun x => (x - listMean vs) ^ 2)).sum / ((vs.length : ℚ) - 1))

/-- Quantile by linear interpolation between order statistics. -/
def quantileLin (vs : List ℚ) (p : ℚ) : ℚ :=
  let sorted := List.insertionSort (· ≤ ·) vs
  let n := vs.length
  let pos : ℚ := p * ((n : ℚ) - 1)
  let i : ℕ := pos.floor.toNat
  let lo := sorted.getD i 0
  let hi := sorted.getD (Nat.min (i + 1) (n - 1)) lo
  lo + (pos - (i : ℚ)) * (hi - lo)

/-- Numeric statistics of a nonempty list of numbers. -/
def mkNumStats (x : ℚ) (xs : List ℚ) : NumStats :=
  { minV := xs.foldl min x
    maxV := xs.foldl max x
    mean := listMean (x :: xs)
    sampleVariance := sampleVar (x :: xs)
    q25 := quantileLin (x :: xs) (1 / 4)
    q50 := quantileLin (x :: xs) (1 / 2)
    q75 := quantileLin (x :: xs) (3 / 4) }

/-- Modelled from the spec: one summary per column. -/
structure ColumnSummary where
  name : String
  dtype_kind : DtypeKind
  missing_count : ℕ
  missing_share : ℚ
  unique : ℕ
  num_stats : Option NumStats
  cat_mode : Option (Value × ℕ)
  deriving DecidableEq, Repr

/-- Modelled from the spec: the Column Profiler.  Given the dataset row
count and one column it classifies the dtype, computes missing counts and
share (0 when the dataset has no rows), the distinct non-missing count,
numeric stats for numeric columns and the mode for categorical columns. -/
def profileColumn (nRows : ℕ) (c : Column) : ColumnSummary :=
  { name := c.name
    dtype_kind := classifyDtype c
    missing_count := missingCount c
    missing_share := if nRows = 0 then 0 else (missingCount c : ℚ) / (nRows : ℚ)
    unique := uniqueCount c
    num_stats :=
      if classifyDtype c = DtypeKind.numeric then
        match colRats c with
        | [] => none
        | x :: xs => some (mkNumStats x xs)
      else none
    cat_mode :=
      if classifyDtype c = DtypeKind.categorical then
        (rankCategories (nonMissingVals c)).head?
      else none }

/-- Modelled from the spec: the dataset-level summary. -/
structure DatasetSummary where
  n_rows : ℕ
  n_cols : ℕ
  columns : List ColumnSummary
  deriving DecidableEq, Repr

/-- Modelled from the spec: the Dataset Summarizer profiles every column
in declaration order and records the row and column counts. -/
def summarize_dataset (d : Dataset) : DatasetSummary :=
  { n_rows := d.nRows
    n_cols := d.cols.length
    columns := d.cols.map (profileColumn d.nRows) }

/-- A missing-table row: column name, missing count, missing share. -/
structure MissingRow where
  name : String
  missing_count : ℕ
  missing_share : ℚ
  deriving DecidableEq, Repr

/-- Modelled from the spec: the Missing-Value Analyzer keeps one entry per
column with at least one missing cell. -/
def missing_table (d : Dataset) : List MissingRow :=
  d.cols.filterMap (fun c =>
    let m := missingCount c
    if m = 0 then none
    else some { name := c.name, missing_count := m,
                missing_share := if d.nRows = 0 then 0 else (m : ℚ) / (d.nRows : ℚ) })

/-- The numeric columns of a dataset (by the Column Profiler's dtype). -/
def numericColumns (d : Dataset) : List Column :=
  d.cols.filter (fun c => classifyDtype c = DtypeKind.numeric)

/-- Mean of the first components of a list of pairs. -/
def meanFst (l : List (ℚ × ℚ)) : ℚ := (l.map Prod.fst).sum / l.length

/-- Mean of the second components of a list of pairs. -/
def meanSnd (l : List (ℚ × ℚ)) : ℚ := (l.map Prod.snd).sum / l.length

/-- Centered cross-product sum (covariance numerator). -/
def covSum (l : List (ℚ × ℚ)) : ℚ :=
  (l.map (fun p => (p.1 - meanFst l) * (p.2 - meanSnd l))).sum

/-- Centered square sum of first components (variance numerator). -/
def varFst (l : List (ℚ × ℚ)) : ℚ :=
  (l.map (fun p => (p.1 - meanFst l) ^ 2)).sum

/-- Centered square sum of second components. -/
def varSnd (l : List (ℚ × ℚ)) : ℚ :=
  (l.map (fun p => (p.2 - meanSnd l) ^ 2)).sum

/-- Modelled from the spec: an exact representation of a Pearson
correlation coefficient r = cov / sqrt(varFst * varSnd): the pair of its
numerator `cov` and the square `varProd = varFst * varSnd` of its
denominator, both exact rationals.  The represented real number is
`cov / sqrt varProd`; the representation `⟨1, 1⟩` denotes exactly 1.0.
No claim refers to the numeric value of an off-diagonal coefficient. -/
structure Corr where
  cov : ℚ
  varProd : ℚ
  deriving DecidableEq, Repr

/-- The `Corr` representation denotes the real number 1.0 exactly when the
numerator is positive and its square equals the squared denominator. -/
def Corr.denotesOne (p : Corr) : Prop :=
  0 < p.cov ∧ p.cov ^ 2 = p.varProd

/-- Modelled from the spec: the Pearson coefficient of a list of
pairwise-complete observations, `none` (NaN) when either column has zero
variance over those observations (this includes fewer than two rows). -/
def pearson (l : List (ℚ × ℚ)) : Option Corr :=
  if varFst l = 0 ∨ varSnd l = 0 then none
  else some { cov := covSum l, varProd := varFst l * varSnd l }

/-- The pairwise-complete observations of two cell sequences: rows where
both are non-missing numbers. -/
def pairList (xs ys : List Cell) : List (ℚ × ℚ) :=
  (xs.zip ys).filterMap (fun p =>
    match p.1, p.2 with
    | some (Value.num a), some (Value.num b) => some (a, b)
    | _, _ => none)

/-- Modelled from the spec: the correlation matrix — the ordered list of
numeric column names, and the coefficient for each index pair.  Out-of-range
indices yield `none`. -/
structure CorrelationMatrix where
  names : List String
  entry : ℕ → ℕ → Option Corr

/-- Modelled from the spec: the Correlation Engine.  Empty when fewer than
two numeric columns exist; diagonal fixed at 1.0; off-diagonal entries are
Pearson coefficients over pairwise-complete observations. -/
def correlation_matrix (d : Dataset) : CorrelationMatrix :=
  let ncs := numericColumns d
  if ncs.length < 2 then { names := [], entry := fun _ _ => none }
  else
    { names := ncs.map Column.name
      entry := fun i j =>
        match ncs[i]?, ncs[j]? with
        | some ci, some cj =>
            if i = j then some { cov := 1, varProd := 1 }
            else pearson (pairList ci.cells cj.cells)
        | _, _ => none }

/-- Modelled from the spec: the error taxonomy of the core; non-positive
`top_k` is a parameter-validation error. -/
inductive EdaError where
  | invalidParameter (param : String)
  deriving DecidableEq, Repr

/-- The top-k ranked values of one column. -/
def topCatsOf (c : Column) (k : ℤ) : List (Value × ℕ) :=
  (rankCategories (nonMissingVals c)).take k.toNat

/-- Modelled from the spec: the Category Ranker.  `top_k <= 0` fails fast
with an InvalidParameter error before any computation on the Dataset;
otherwise every categorical column is mapped to its `top_k` most frequent
non-missing values with counts, descending by frequency, ties broken by
first-seen order. -/
def top_categories (d : Dataset) (top_k : ℤ) :
    Except EdaError (List (String × List (Value × ℕ))) :=
  if top_k ≤ 0 then Except.error (EdaError.invalidParameter "top_k")
  else Except.ok (d.cols.filterMap (fun c =>
    if classifyDtype c = DtypeKind.categorical then
      some (c.name, topCatsOf c top_k)
    else none))

/-- Whether a column summary is problematic, as the Quality Scorer counts
it (spec: `missing_share > 0.5` OR `unique <= 1`). -/
def problematic (c : ColumnSummary) : Bool :=
  decide (c.missing_share > 1 / 2) || decide (c.unique ≤ 1)

/-- Modelled from the spec: the Quality Scorer's output — at least the
quality score and the count/list of problem columns. -/
structure QualityFlags where
  quality_score : ℚ
  n_problem_columns : ℕ
  problem_columns : List String
  deriving DecidableEq, Repr

/-- Modelled from the spec: the Quality Scorer.
`quality_score = 1 - (count of problematic columns / n_cols)`, defined as
1.0 when `n_cols = 0`.  The missing table is part of the interface but the
scoring policy is a function of the summary alone. -/
def compute_quality_flags (s : DatasetSummary) (_m : List MissingRow) : QualityFlags :=
  let probs := (s.columns.filter problematic).map ColumnSummary.name
  { quality_score :=
      if s.n_cols = 0 then 1 else 1 - (probs.length : ℚ) / (s.n_cols : ℚ)
    n_problem_columns := probs.length
    problem_columns := probs }

/-- Embedded from `cli.py` lines 101–105: the problem-column list written
to `summary.json` — `[c.name for c in summary.columns if c.missing_share > 0.5
or c.unique <= 1]`. -/
def problemsForJson (s : DatasetSummary) : List String :=
  (s.columns.filter (fun c => decide (c.missing_share > 0.5 ∨ c.unique ≤ 1))).map
    ColumnSummary.name

/-- Externally visible events of one `report` invocation, in program
order (embedded from `cli.py` lines 67–123). -/
inductive Ev where
  | mkdirOutDir (parents existOk : Bool)
  | loadOk
  | loadError
  | computeSummary
  | computeMissing
  | computeCorr
  | computeTopCats
  | computeQuality
  | raiseInvalidParameter
  | gateCheck
  | exitWith (code : ℕ)
  | writeFile (file : String)
  | echoDone
  deriving DecidableEq, Repr

/-- The options of the `report` command that affect the embedded trace
(`cli.py` lines 51–65; `out_dir`, `sep`, `encoding` and `title` only feed
the loader and the renderers and are abstracted away). -/
structure ReportOpts where
  max_hist_columns : ℤ
  top_k_categories : ℤ
  json_summary : Bool
  min_quality_score : ℚ
  fail_on_low_quality : Bool
  deriving DecidableEq, Repr

/-- The quality-gate condition of `cli.py` line 80:
`fail_on_low_quality and quality_flags["quality_score"] < min_quality_score`. -/
def gateFails (d : Dataset) (o : ReportOpts) : Prop :=
  o.fail_on_low_quality = true ∧
    (compute_quality_flags (summarize_dataset d) (missing_table d)).quality_score <
      o.min_quality_score

instance (d : Dataset) (o : ReportOpts) : Decidable (gateFails d o) := by
  unfold gateFails; infer_instance

/-- The writes performed after the quality gate passes (`cli.py` lines
85–123): `summary.csv` always; `missing.csv` only when the missing table
is non-empty; `correlation.csv` only when the correlation matrix is
non-empty; the top-categories tables; `report.md`; `summary.json` only
when requested; the three plots; the final echo. -/
def successWrites (d : Dataset) (o : ReportOpts) : List Ev :=
  Ev.writeFile "summary.csv" ::
    ((if missing_table d = [] then [] else [Ev.writeFile "missing.csv"]) ++
      (if (correlation_matrix d).names = [] then [] else [Ev.writeFile "correlation.csv"]) ++
      [Ev.writeFile "top_categories", Ev.writeFile "report.md"] ++
      (if o.json_summary then [Ev.writeFile "summary.json"] else []) ++
      [Ev.writeFile "histograms", Ev.writeFile "missing_matrix.png",
        Ev.writeFile "correlation_heatmap.png", Ev.echoDone])

/-- Embedded from `cli.py` lines 67–123: the event trace of one `report`
invocation.  `load` is the loader's outcome (`none`: the loader raised).
The output directory is created first (line 68, `parents=True,
exist_ok=True`); then the CSV is loaded (line 70); then the five analyses
run in source order (lines 72–78) — `top_categories` raising
InvalidParameter aborts the run there; then the quality gate is checked
(line 80) and on failure the run exits with code 1 before any write;
otherwise the report artifacts are written (lines 85–123). -/
def reportTrace (load : Option Dataset) (o : ReportOpts) : List Ev :=
  Ev.mkdirOutDir true true ::
    match load with
    | none => [Ev.loadError]
    | some d =>
        Ev.loadOk :: Ev.computeSummary :: Ev.computeMissing :: Ev.computeCorr ::
          match top_categories d o.top_k_categories with
          | Except.error _ => [Ev.raiseInvalidParameter]
          | Except.ok _ =>
              Ev.computeTopCats :: Ev.computeQuality :: Ev.gateCheck ::
                if gateFails d o then [Ev.exitWith 1] else successWrites d o

/-- Is an event a report-artifact write? -/
def isWrite : Ev → Bool
  | Ev.writeFile _ => true
  | _ => false

/-- The completion events of the five analyses, in source order. -/
def analysisEvents : List Ev :=
  [Ev.computeSummary, Ev.computeMissing, Ev.computeCorr, Ev.computeTopCats,
    Ev.computeQuality]

/-! ## Sample data used by the witnesses -/

/-- Scenario A of the spec: 3 rows, a numeric column and a categorical
column. -/
def sampleDataset : Dataset :=
  { nRows := 3
    cols :=
      [ { name := "x"
          cells := [some (Value.num 1), some (Value.num 2), some (Value.num 3)] },
        { name := "y"
          cells := [some (Value.str "a"), some (Value.str "a"), some (Value.str "b")] } ] }

/-- A dataset with two numeric columns (non-empty correlation matrix). -/
def sampleNumPair : Dataset :=
  { nRows := 3
    cols :=
      [ { name := "x"
          cells := [some (Value.num 1), some (Value.num 2), some (Value.num 3)] },
        { name := "z"
          cells := [some (Value.num 2), some (Value.num 1), some (Value.num 5)] } ] }

/-- An all-missing single column (Scenario B of the spec). -/
def sampleAllMissing : Column :=
  { name := "m", cells := [none, none, none] }

/-- Default-like options: gate disabled, positive top-k. -/
def sampleOpts : ReportOpts :=
  { max_hist_columns := 6
    top_k_categories := 5
    json_summary := false
    min_quality_score := 1 / 2
    fail_on_low_quality := false }

/-- The empty dataset (zero rows, zero columns). -/
def sampleEmpty : Dataset :=
  { nRows := 0, cols := [] }

/-- Options with the gate enabled and a threshold above any possible
score, so the gate fails on every dataset. -/
def sampleOptsGate : ReportOpts :=
  { max_hist_columns := 6
    top_k_categories := 5
    json_summary := false
    min_quality_score := 2
    fail_on_low_quality := true }

/-! ## Counting lemmas -/

/-- Missing and non-missing cells of a list partition its length. -/
theorem countP_isNone_add_filterMap_id (l : List Cell) :
    l.countP (fun x => x.isNone) + (l.filterMap id).length = l.length := by
  induction l with
  | nil => simp
  | cons a t ih =>
      cases a <;> simp [List.countP_cons, List.filterMap_cons] <;> omega

/-- `firstSeen` never lengthens a list. -/
theorem firstSeen_length_le {a : Type} [DecidableEq a] (l : List a) :
    (firstSeen l).length ≤ l.length := by
  induction l with
  | nil => simp [firstSeen]
  | cons v vs ih =>
      simp only [firstSeen, List.length_cons]
      have h := List.length_filter_le (fun w => decide (w ≠ v)) (firstSeen vs)
      omega

/-- `firstSeen` yields a duplicate-free list. -/
theorem firstSeen_nodup {a : Type} [DecidableEq a] (l : List a) :
    (firstSeen l).Nodup := by
  induction l with
  | nil => simp [firstSeen]
  | cons v vs ih =>
      simp only [firstSeen, List.nodup_cons]
      refine ⟨fun hv => ?_, ih.filter _⟩
      have h := List.of_mem_filter hv
      simp at h

/-! ## C4: summary counting invariants -/

/-- C4: for every well-formed dataset, `summarize_dataset` reports the
dataset's row and column counts, profiles the columns in order, and for
every column the missing and non-missing cells partition the rows, the
missing share is the missing fraction (0 when there are no rows, which in
ℚ coincides with division by zero), and the distinct non-missing count is
at most the number of non-missing rows. -/
theorem summarize_dataset_counts (d : Dataset) (h : WellFormed d) :
    (summarize_dataset d).n_rows = d.nRows ∧
    (summarize_dataset d).n_cols = d.cols.length ∧
    (summarize_dataset d).columns = d.cols.map (profileColumn d.nRows) ∧
    ∀ c ∈ d.cols,
      (profileColumn d.nRows c).missing_count + nonMissingCount c = d.nRows ∧
      (profileColumn d.nRows c).missing_share =
        ((profileColumn d.nRows c).missing_count : ℚ) / (d.nRows : ℚ) ∧
      (profileColumn d.nRows c).unique ≤
        d.nRows - (profileColumn d.nRows c).missing_count := by
  refine ⟨rfl, rfl, rfl, ?_⟩
  intro c hc
  have hlen := h c hc
  have hsum := countP_isNone_add_filterMap_id c.cells
  refine ⟨?_, ?_, ?_⟩
  · show missingCount c + nonMissingCount c = d.nRows
    unfold missingCount nonMissingCount nonMissingVals
    omega
  · show (profileColumn d.nRows c).missing_share = ((missingCount c : ℕ) : ℚ) / (d.nRows : ℚ)
    by_cases h0 : d.nRows = 0
    · simp [profileColumn, h0]
    · simp [profileColumn, h0]
  · show uniqueCount c ≤ d.nRows - missingCount c
    have h1 := firstSeen_length_le (nonMissingVals c)
    unfold uniqueCount at *
    unfold missingCount nonMissingVals at *
    omega

/-- Witness for C4 at the Scenario-A dataset. -/
theorem summarize_dataset_counts_witness :
    (summarize_dataset sampleDataset).n_rows = sampleDataset.nRows :=
  (summarize_dataset_counts sampleDataset (by decide)).1

/-! ## C2: the quality-score formula and the shared problem predicate -/

/-- The scorer's predicate coincides with the inline predicate of the
`summary.json` emission in `cli.py`. -/
theorem problematic_eq_json_pred (c : ColumnSummary) :
    problematic c = decide (c.missing_share > 0.5 ∨ c.unique ≤ 1) := by
  have h : (0.5 : ℚ) = 1 / 2 := by norm_num
  rw [h]
  by_cases h1 : c.missing_share > 1 / 2 <;> by_cases h2 : c.unique ≤ 1 <;>
    simp [problematic, h1, h2]

/-- C2: `quality_score` is `1 - (problem count / n_cols)` (1 when
`n_cols = 0`), where a column is problematic exactly when
`missing_share > 0.5` or `unique ≤ 1`; the problem-column list of the
flags equals the list the `report` command writes to `summary.json`. -/
theorem quality_score_policy (s : DatasetSummary) (m : List MissingRow) :
    (compute_quality_flags s m).quality_score =
      (if s.n_cols = 0 then 1
        else 1 - ((s.columns.countP problematic : ℚ) / (s.n_cols : ℚ))) ∧
    (compute_quality_flags s m).n_problem_columns = s.columns.countP problematic ∧
    (compute_quality_flags s m).problem_columns = problemsForJson s := by
  have hcount : (s.columns.filter problematic).length = s.columns.countP problematic :=
    (List.countP_eq_length_filter _ _).symm
  refine ⟨?_, ?_, ?_⟩
  · simp only [compute_quality_flags, List.length_map, hcount]
  · simp only [compute_quality_flags, List.length_map, hcount]
  · simp only [compute_quality_flags, problemsForJson]
    congr 1
    exact List.filter_congr fun c _ => problematic_eq_json_pred c

/-! ## C3: non-positive top-k fails fast -/

/-- C3: with `top_k ≤ 0`, `top_categories` fails with the InvalidParameter
error, and the outcome does not depend on the dataset at all. -/
theorem top_categories_invalid_param (d : Dataset) (k : ℤ) (hk : k ≤ 0) :
    top_categories d k = Except.error (EdaError.invalidParameter "top_k") ∧
    ∀ d' : Dataset, top_categories d k = top_categories d' k := by
  refine ⟨?_, fun d' => ?_⟩ <;> simp [top_categories, hk]

/-- Witness for C3 at `top_k = 0`. -/
theorem top_categories_invalid_param_witness :
    top_categories sampleDataset 0 = Except.error (EdaError.invalidParameter "top_k") :=
  (top_categories_invalid_param sampleDataset 0 (by decide)).1

/-! ## C8: the output directory is created first -/

/-- C8: every `report` trace begins with the creation of the output
directory (with `parents` and `exist_ok` both set), before the loader
runs and hence before the quality gate; in particular a run whose loader
fails still created the directory. -/
theorem report_mkdir_first (load : Option Dataset) (o : ReportOpts) :
    (reportTrace load o).head? = some (Ev.mkdirOutDir true true) ∧
    reportTrace none o = [Ev.mkdirOutDir true true, Ev.loadError] := by
  exact ⟨by cases load <;> rfl, rfl⟩

/-! ## Correlation lemmas -/

/-- Swapping the argument columns swaps each pairwise-complete pair. -/
theorem pairList_comm (xs ys : List Cell) :
    pairList ys xs = (pairList xs ys).map Prod.swap := by
  induction xs generalizing ys with
  | nil => cases ys <;> rfl
  | cons x xt ih =>
      cases ys with
      | nil => rfl
      | cons y yt =>
          have ih' := ih yt
          simp only [pairList] at ih' ⊢
          rcases x with _ | (a | sa) <;> rcases y with _ | (b | sb) <;>
            simp [List.filterMap_cons, ih']

/-- The mean of the first components after a swap. -/
theorem meanFst_swap (l : List (ℚ × ℚ)) : meanFst (l.map Prod.swap) = meanSnd l := by
  simp [meanFst, meanSnd, List.map_map, Function.comp_def]

/-- The mean of the second components after a swap. -/
theorem meanSnd_swap (l : List (ℚ × ℚ)) : meanSnd (l.map Prod.swap) = meanFst l := by
  simp [meanFst, meanSnd, List.map_map, Function.comp_def]

/-- The covariance numerator is symmetric under a swap. -/
theorem covSum_swap (l : List (ℚ × ℚ)) : covSum (l.map Prod.swap) = covSum l := by
  simp only [covSum, List.map_map, Function.comp_def, Prod.fst_swap, Prod.snd_swap,
    meanFst_swap, meanSnd_swap]
  have hfun : (fun x : ℚ × ℚ => (x.2 - meanSnd l) * (x.1 - meanFst l)) =
      fun p : ℚ × ℚ => (p.1 - meanFst l) * (p.2 - meanSnd l) := by
    funext p; ring
  rw [hfun]

/-- The first-component variance numerator after a swap. -/
theorem varFst_swap (l : List (ℚ × ℚ)) : varFst (l.map Prod.swap) = varSnd l := by
  simp only [varFst, varSnd, List.map_map, Function.comp_def, Prod.fst_swap,
    meanFst_swap]

/-- The second-component variance numerator after a swap. -/
theorem varSnd_swap (l : List (ℚ × ℚ)) : varSnd (l.map Prod.swap) = varFst l := by
  simp only [varFst, varSnd, List.map_map, Function.comp_def, Prod.snd_swap,
    meanSnd_swap]

/-- The Pearson coefficient is symmetric under a swap of the columns. -/
theorem pearson_swap (l : List (ℚ × ℚ)) : pearson (l.map Prod.swap) = pearson l := by
  simp only [pearson, varFst_swap, varSnd_swap, covSum_swap]
  by_cases h1 : varFst l = 0 <;> by_cases h2 : varSnd l = 0 <;>
    simp [h1, h2, mul_comm]

/-! ## C6: symmetry, unit diagonal, emptiness -/

/-- C6: the correlation matrix is symmetric; when it is non-empty every
diagonal entry is the representation of exactly 1.0; and fewer than two
numeric columns yield the empty matrix. -/
theorem correlation_matrix_props (d : Dataset) :
    (∀ i j, (correlation_matrix d).entry i j = (correlation_matrix d).entry j i) ∧
    ((correlation_matrix d).names ≠ [] →
      ∀ i < (correlation_matrix d).names.length,
        (correlation_matrix d).entry i i = some { cov := 1, varProd := 1 }) ∧
    Corr.denotesOne { cov := 1, varProd := 1 } ∧
    ((numericColumns d).length < 2 → (correlation_matrix d).names = []) := by
  by_cases h : (numericColumns d).length < 2
  · refine ⟨fun i j => ?_, fun hne => absurd ?_ hne, ⟨one_pos, by norm_num⟩, fun _ => ?_⟩ <;>
      simp [correlation_matrix, h]
  · refine ⟨?_, ?_, ⟨one_pos, by norm_num⟩, fun hlt => absurd hlt h⟩
    · intro i j
      simp only [correlation_matrix, h, if_false]
      rcases hi : (numericColumns d)[i]? with _ | ci <;>
        rcases hj : (numericColumns d)[j]? with _ | cj <;> simp [hi, hj]
      by_cases hij : i = j
      · subst hij
        rw [hi] at hj
        simp [Option.some.inj hj]
      · have hji : ¬ j = i := fun e => hij e.symm
        simp only [hij, hji, if_false]
        rw [pairList_comm, pearson_swap]
    · intro hne i hlen
      simp only [correlation_matrix, h, if_false] at hlen ⊢
      have hi : i < (numericColumns d).length := by
        simpa using hlen
      rw [List.getElem?_eq_getElem hi]
      simp

/-- Witness for C6: diagonal entry of a non-empty matrix. -/
theorem correlation_matrix_props_witness :
    (correlation_matrix sampleNumPair).entry 0 0 = some { cov := 1, varProd := 1 } :=
  (correlation_matrix_props sampleNumPair).2.1 (by decide) 0 (by decide)

/-! ## C5: degenerate data never fails -/

/-- C5: the analyses are total Lean functions by construction; this
records the degenerate cases the spec singles out.  Fewer than two numeric
columns (in particular zero) yield the empty correlation matrix; a
zero-row dataset profiles every column with zero counts and undefined
stats; an all-missing column is `unknown` with `unique = 0`, undefined
stats and a missing count equal to the row count; zero variance makes the
Pearson coefficient `none` (NaN) rather than an error; and any positive
`top_k` makes `top_categories` succeed. -/
theorem degenerate_data_total (d : Dataset) (c : Column) (nR : ℕ) (k : ℤ) :
    ((numericColumns d).length < 2 → (correlation_matrix d).names = []) ∧
    (WellFormed d → d.nRows = 0 → ∀ c' ∈ d.cols,
      profileColumn d.nRows c' =
        { name := c'.name, dtype_kind := DtypeKind.unknown, missing_count := 0,
          missing_share := 0, unique := 0, num_stats := none, cat_mode := none }) ∧
    ((∀ x ∈ c.cells, x = none) →
      classifyDtype c = DtypeKind.unknown ∧
      (profileColumn nR c).unique = 0 ∧
      (profileColumn nR c).num_stats = none ∧
      (profileColumn nR c).cat_mode = none ∧
      (profileColumn nR c).missing_count = c.cells.length) ∧
    (∀ l : List (ℚ × ℚ), varFst l = 0 ∨ varSnd l = 0 → pearson l = none) ∧
    (0 < k → ∃ tc, top_categories d k = Except.ok tc) := by
  refine ⟨fun h => by simp [correlation_matrix, h], ?_, ?_, ?_, ?_⟩
  · intro hwf h0 c' hc'
    have hlen := hwf c' hc'
    rw [h0] at hlen ⊢
    obtain ⟨nm, cl⟩ := c'
    simp only [List.length_eq_zero] at hlen
    subst hlen
    rfl
  · intro hall
    have hnm : nonMissingVals c = [] := by
      refine List.filterMap_eq_nil_iff.mpr fun a ha => ?_
      rw [hall a ha]; rfl
    have hcl : classifyDtype c = DtypeKind.unknown := by
      simp [classifyDtype, hnm]
    refine ⟨hcl, ?_, ?_, ?_, ?_⟩
    · simp [profileColumn, uniqueCount, hnm, firstSeen]
    · simp [profileColumn, hcl]
    · simp [profileColumn, hcl]
    · show missingCount c = c.cells.length
      unfold missingCount
      exact List.countP_eq_length.mpr fun a ha => by rw [hall a ha]; rfl
  · intro l h
    unfold pearson
    exact if_pos h
  · intro hk
    have hnot : ¬ k ≤ 0 := not_le.mpr hk
    refine ⟨d.cols.filterMap (fun c =>
      if classifyDtype c = DtypeKind.categorical then some (c.name, topCatsOf c k)
      else none), ?_⟩
    simp [top_categories, hnot]

/-- Witness for C5 at a dataset with a single numeric column. -/
theorem degenerate_data_total_witness :
    (correlation_matrix sampleDataset).names = [] :=
  (degenerate_data_total sampleDataset sampleAllMissing 3 1).1 (by decide)

/-! ## Ranking lemmas -/

/-- `withIndex` preserves length. -/
theorem withIndex_length {a : Type} (i : ℕ) (l : List a) :
    (withIndex i l).length = l.length := by
  induction l generalizing i with
  | nil => rfl
  | cons x xs ih => simp [withIndex, ih]

/-- On a duplicate-free list, `withIndex` pairs each element with the
index of its (unique) occurrence. -/
theorem withIndex_prop {a : Type} [DecidableEq a] {l : List a} (hnd : l.Nodup)
    (i : ℕ) : ∀ x ∈ withIndex i l, x.1 ∈ l ∧ x.2 = i + l.indexOf x.1 := by
  induction l generalizing i with
  | nil => intro x hx; cases hx
  | cons v vs ih =>
      intro x hx
      simp only [withIndex] at hx
      rcases List.mem_cons.mp hx with rfl | hx
      · exact ⟨List.mem_cons_self v vs, by simp [List.indexOf_cons_self]⟩
      · have hnd' := (List.nodup_cons.mp hnd).2
        have hv := (List.nodup_cons.mp hnd).1
        obtain ⟨hm, he⟩ := ih hnd' (i + 1) x hx
        have hne : v ≠ x.1 := fun e => hv (e ▸ hm)
        refine ⟨List.mem_cons_of_mem v hm, ?_⟩
        rw [List.indexOf_cons_ne _ hne, he]
        omega

/-- The full ranking has one entry per distinct value. -/
theorem rank_length {a : Type} [DecidableEq a] (vs : List a) :
    (rankCategories vs).length = (firstSeen vs).length := by
  unfold rankCategories
  rw [List.length_map, (List.perm_insertionSort rankLE (rankKeyed vs)).length_eq]
  unfold rankKeyed
  rw [List.length_map, withIndex_length]

/-- The full ranking is sorted descending by frequency with ties broken by
first-seen order. -/
theorem rank_pairwise {a : Type} [DecidableEq a] (vs : List a) :
    (rankCategories vs).Pairwise (fun x y => y.2 < x.2 ∨
      (x.2 = y.2 ∧ (firstSeen vs).indexOf x.1 ≤ (firstSeen vs).indexOf y.1)) := by
  have hsort : (List.insertionSort rankLE (rankKeyed vs)).Sorted rankLE :=
    List.sorted_insertionSort rankLE (rankKeyed vs)
  have hperm := List.perm_insertionSort rankLE (rankKeyed vs)
  have hmem : ∀ x ∈ List.insertionSort rankLE (rankKeyed vs),
      (firstSeen vs).indexOf x.1.1 = x.2 := by
    intro x hx
    have hk : x ∈ rankKeyed vs := hperm.mem_iff.mp hx
    obtain ⟨p, hp, rfl⟩ := List.mem_map.mp hk
    obtain ⟨hm, he⟩ := withIndex_prop (firstSeen_nodup vs) 0 p hp
    simpa using he.symm
  unfold rankCategories
  rw [List.pairwise_map]
  refine List.Pairwise.imp_of_mem ?_ hsort
  intro x y hx hy hr
  rcases hr with h | ⟨h1, h2⟩
  · exact Or.inl h
  · exact Or.inr ⟨h1, by rw [hmem x hx, hmem y hy]; exact h2⟩

/-! ## C7: shape of the top-categories tables -/

/-- C7: for positive `top_k`, every entry of `top_categories` comes from a
categorical column of the dataset; its list is at most
`min top_k (distinct non-missing count)` long, its frequencies are
non-increasing, and equal frequencies appear in first-seen order. -/
theorem top_categories_ranked (d : Dataset) (k : ℤ) (hk : 0 < k)
    (tc : List (String × List (Value × ℕ))) (htc : top_categories d k = Except.ok tc)
    (nm : String) (lst : List (Value × ℕ)) (hmem : (nm, lst) ∈ tc) :
    ∃ c ∈ d.cols, c.name = nm ∧ classifyDtype c = DtypeKind.categorical ∧
      lst.length ≤ min k.toNat (uniqueCount c) ∧
      lst.Pairwise (fun x y => y.2 ≤ x.2) ∧
      lst.Pairwise (fun x y => x.2 = y.2 →
        (firstSeen (nonMissingVals c)).indexOf x.1 ≤
          (firstSeen (nonMissingVals c)).indexOf y.1) := by
  have hnot : ¬ k ≤ 0 := not_le.mpr hk
  rw [top_categories, if_neg hnot] at htc
  have htc' : d.cols.filterMap (fun c =>
      if classifyDtype c = DtypeKind.categorical then some (c.name, topCatsOf c k)
      else none) = tc := Except.ok.inj htc
  subst htc'
  obtain ⟨c, hc, hfc⟩ := List.mem_filterMap.mp hmem
  by_cases hcat : classifyDtype c = DtypeKind.categorical
  · rw [if_pos hcat] at hfc
    have hpair := Option.some.inj hfc
    have hnm : c.name = nm := congrArg Prod.fst hpair
    have hlst : topCatsOf c k = lst := congrArg Prod.snd hpair
    have hsub : List.Sublist (topCatsOf c k) (rankCategories (nonMissingVals c)) := by
      unfold topCatsOf
      exact List.take_sublist _ _
    have hp := List.Pairwise.sublist hsub (rank_pairwise (nonMissingVals c))
    refine ⟨c, hc, hnm, hcat, ?_, ?_, ?_⟩
    · rw [← hlst]
      unfold topCatsOf
      rw [List.length_take, rank_length]
      exact le_rfl
    · rw [← hlst]
      exact hp.imp fun h => by
        rcases h with h | ⟨h1, _⟩
        · exact le_of_lt h
        · exact le_of_eq h1.symm
    · rw [← hlst]
      exact hp.imp fun h he => by
        rcases h with h | ⟨_, h2⟩
        · exact absurd h (by rw [he]; exact lt_irrefl _)
        · exact h2
  · rw [if_neg hcat] at hfc
    exact absurd hfc (by simp)

/-- Witness for C7 at Scenario A with `top_k = 1`. -/
theorem top_categories_ranked_witness :
    ∃ c ∈ sampleDataset.cols, c.name = "y" ∧ classifyDtype c = DtypeKind.categorical ∧
      ([(Value.str "a", 2)] : List (Value × ℕ)).length ≤ min (1 : ℤ).toNat (uniqueCount c) ∧
      ([(Value.str "a", 2)] : List (Value × ℕ)).Pairwise (fun x y => y.2 ≤ x.2) ∧
      ([(Value.str "a", 2)] : List (Value × ℕ)).Pairwise (fun x y => x.2 = y.2 →
        (firstSeen (nonMissingVals c)).indexOf x.1 ≤
          (firstSeen (nonMissingVals c)).indexOf y.1) :=
  top_categories_ranked sampleDataset 1 (by decide)
    [( "y", [(Value.str "a", 2)])] rfl "y" [(Value.str "a", 2)] (by simp)

/-! ## Trace-shape lemmas for the `report` command -/

/-- With a positive top-k the trace is the analysis prefix, the gate
check, and then either the exit or the writes. -/
theorem reportTrace_ok (d : Dataset) (o : ReportOpts) (hk : 0 < o.top_k_categories) :
    reportTrace (some d) o =
      [Ev.mkdirOutDir true true, Ev.loadOk, Ev.computeSummary, Ev.computeMissing,
        Ev.computeCorr, Ev.computeTopCats, Ev.computeQuality, Ev.gateCheck] ++
        (if gateFails d o then [Ev.exitWith 1] else successWrites d o) := by
  have hnot : ¬ o.top_k_categories ≤ 0 := not_le.mpr hk
  simp [reportTrace, top_categories, hnot]

/-- With a non-positive top-k the run aborts inside `top_categories`. -/
theorem reportTrace_err (d : Dataset) (o : ReportOpts) (hk : o.top_k_categories ≤ 0) :
    reportTrace (some d) o =
      [Ev.mkdirOutDir true true, Ev.loadOk, Ev.computeSummary, Ev.computeMissing,
        Ev.computeCorr, Ev.raiseInvalidParameter] := by
  simp [reportTrace, top_categories, hk]

/-- An exit event never occurs among the post-gate writes. -/
theorem exit_not_mem_successWrites (d : Dataset) (o : ReportOpts) (n : ℕ) :
    Ev.exitWith n ∉ successWrites d o := by
  unfold successWrites
  intro h
  by_cases h1 : missing_table d = [] <;>
    by_cases h2 : (correlation_matrix d).names = [] <;>
    by_cases h3 : o.json_summary = true <;>
    simp [h1, h2, h3] at h

/-- `summary.csv` is always among the post-gate writes. -/
theorem summary_csv_mem_successWrites (d : Dataset) (o : ReportOpts) :
    Ev.writeFile "summary.csv" ∈ successWrites d o := by
  unfold successWrites
  exact List.mem_cons_self _ _

/-- `report.md` is always among the post-gate writes. -/
theorem report_md_mem_successWrites (d : Dataset) (o : ReportOpts) :
    Ev.writeFile "report.md" ∈ successWrites d o := by
  unfold successWrites
  refine List.mem_cons_of_mem _ ?_
  simp

/-- `missing.csv` is written exactly when the missing table is
non-empty. -/
theorem missing_csv_mem_successWrites (d : Dataset) (o : ReportOpts) :
    Ev.writeFile "missing.csv" ∈ successWrites d o ↔ missing_table d ≠ [] := by
  unfold successWrites
  by_cases h1 : missing_table d = [] <;>
    by_cases h2 : (correlation_matrix d).names = [] <;>
    by_cases h3 : o.json_summary = true <;>
    simp [h1, h2, h3]

/-- `correlation.csv` is written exactly when the correlation matrix is
non-empty. -/
theorem correlation_csv_mem_successWrites (d : Dataset) (o : ReportOpts) :
    Ev.writeFile "correlation.csv" ∈ successWrites d o ↔
      (correlation_matrix d).names ≠ [] := by
  unfold successWrites
  by_cases h1 : missing_table d = [] <;>
    by_cases h2 : (correlation_matrix d).names = [] <;>
    by_cases h3 : o.json_summary = true <;>
    simp [h1, h2, h3]

/-! ## C1: analyses, then the gate, then the writes -/

/-- C1: in every `report` trace, when the gate check occurs the trace
splits at it with all five analyses before it and no write before it;
when gating is on and the score is below the threshold the run contains
the exit with code 1 and no artifact write at all; and an artifact write
in the trace implies the gate did not fail. -/
theorem report_gate_before_writes (d : Dataset) (o : ReportOpts) :
    ((Ev.gateCheck ∉ reportTrace (some d) o ∧
        ∀ e ∈ reportTrace (some d) o, isWrite e = false) ∨
      (∃ pre suf, reportTrace (some d) o = pre ++ Ev.gateCheck :: suf ∧
        (∀ a ∈ analysisEvents, a ∈ pre) ∧ ∀ e ∈ pre, isWrite e = false)) ∧
    (0 < o.top_k_categories → gateFails d o →
      Ev.exitWith 1 ∈ reportTrace (some d) o ∧
      ∀ e ∈ reportTrace (some d) o, isWrite e = false) ∧
    ((∃ e ∈ reportTrace (some d) o, isWrite e = true) → ¬ gateFails d o) := by
  by_cases hk : o.top_k_categories ≤ 0
  · rw [reportTrace_err d o hk]
    refine ⟨Or.inl ⟨by decide, by decide⟩, ?_, ?_⟩
    · intro h1
      exact absurd h1 (not_lt.mpr hk)
    · rintro ⟨e, he, hw⟩
      have hno : ∀ x ∈ [Ev.mkdirOutDir true true, Ev.loadOk, Ev.computeSummary,
          Ev.computeMissing, Ev.computeCorr, Ev.raiseInvalidParameter],
          isWrite x = false := by decide
      rw [hno e he] at hw
      cases hw
  · have hk' : 0 < o.top_k_categories := not_le.mp hk
    have hshape := reportTrace_ok d o hk'
    by_cases hg : gateFails d o
    · rw [hshape, if_pos hg]
      refine ⟨Or.inr ⟨[Ev.mkdirOutDir true true, Ev.loadOk, Ev.computeSummary,
          Ev.computeMissing, Ev.computeCorr, Ev.computeTopCats, Ev.computeQuality],
          [Ev.exitWith 1], rfl, by decide, by decide⟩, ?_, ?_⟩
      · intro _ _
        exact ⟨by decide, by decide⟩
      · rintro ⟨e, he, hw⟩
        have hno : ∀ x ∈ ([Ev.mkdirOutDir true true, Ev.loadOk, Ev.computeSummary,
            Ev.computeMissing, Ev.computeCorr, Ev.computeTopCats, Ev.computeQuality,
            Ev.gateCheck] ++ [Ev.exitWith 1]), isWrite x = false := by decide
        rw [hno e he] at hw
        cases hw
    · rw [hshape, if_neg hg]
      refine ⟨Or.inr ⟨[Ev.mkdirOutDir true true, Ev.loadOk, Ev.computeSummary,
          Ev.computeMissing, Ev.computeCorr, Ev.computeTopCats, Ev.computeQuality],
          successWrites d o, rfl, by decide, by decide⟩, ?_, fun _ => hg⟩
      intro _ hg2
      exact absurd hg2 hg

/-- Witness for C1: a failing gate exits with code 1 and writes nothing. -/
theorem report_gate_before_writes_witness :
    Ev.exitWith 1 ∈ reportTrace (some sampleEmpty) sampleOptsGate ∧
    ∀ e ∈ reportTrace (some sampleEmpty) sampleOptsGate, isWrite e = false :=
  (report_gate_before_writes sampleEmpty sampleOptsGate).2.1 (by decide) (by decide)

/-! ## C9: exit code 1 exactly on an enabled, failing gate -/

/-- C9: with a valid top-k, the run exits with code 1 exactly when
`fail_on_low_quality` is set and the quality score is strictly below the
threshold; otherwise (score equal to the threshold included) it proceeds
and writes `summary.csv` and `report.md`. -/
theorem report_exit_code (d : Dataset) (o : ReportOpts) (hk : 0 < o.top_k_categories) :
    (Ev.exitWith 1 ∈ reportTrace (some d) o ↔
      (o.fail_on_low_quality = true ∧
        (compute_quality_flags (summarize_dataset d) (missing_table d)).quality_score <
          o.min_quality_score)) ∧
    (¬ (o.fail_on_low_quality = true ∧
        (compute_quality_flags (summarize_dataset d) (missing_table d)).quality_score <
          o.min_quality_score) →
      Ev.writeFile "summary.csv" ∈ reportTrace (some d) o ∧
      Ev.writeFile "report.md" ∈ reportTrace (some d) o) := by
  rw [reportTrace_ok d o hk]
  by_cases hg : gateFails d o
  · rw [if_pos hg]
    exact ⟨⟨fun _ => hg, fun _ => by decide⟩, fun hng => absurd hg hng⟩
  · rw [if_neg hg]
    refine ⟨⟨fun hm => ?_, fun hgf => absurd hgf hg⟩, fun _ => ?_⟩
    · exfalso
      rcases List.mem_append.mp hm with hm | hm
      · simp at hm
      · exact exit_not_mem_successWrites d o 1 hm
    · exact ⟨List.mem_append.mpr (Or.inr (summary_csv_mem_successWrites d o)),
        List.mem_append.mpr (Or.inr (report_md_mem_successWrites d o))⟩

/-- Witness for C9: with the gate disabled the run writes the report. -/
theorem report_exit_code_witness :
    Ev.writeFile "summary.csv" ∈ reportTrace (some sampleDataset) sampleOpts ∧
    Ev.writeFile "report.md" ∈ reportTrace (some sampleDataset) sampleOpts :=
  (report_exit_code sampleDataset sampleOpts (by decide)).2 (by decide)

/-! ## C10: which artifacts a passing run writes -/

/-- C10: a gate-passing run always writes `summary.csv` and `report.md`,
writes `missing.csv` exactly when the missing table is non-empty, and
writes `correlation.csv` exactly when the correlation matrix is
non-empty. -/
theorem report_artifact_writes (d : Dataset) (o : ReportOpts)
    (hk : 0 < o.top_k_categories) (hg : ¬ gateFails d o) :
    Ev.writeFile "summary.csv" ∈ reportTrace (some d) o ∧
    Ev.writeFile "report.md" ∈ reportTrace (some d) o ∧
    (Ev.writeFile "missing.csv" ∈ reportTrace (some d) o ↔ missing_table d ≠ []) ∧
    (Ev.writeFile "correlation.csv" ∈ reportTrace (some d) o ↔
      (correlation_matrix d).names ≠ []) := by
  rw [reportTrace_ok d o hk, if_neg hg]
  refine ⟨List.mem_append.mpr (Or.inr (summary_csv_mem_successWrites d o)),
    List.mem_append.mpr (Or.inr (report_md_mem_successWrites d o)), ?_, ?_⟩
  · rw [List.mem_append, missing_csv_mem_successWrites d o]
    simp
  · rw [List.mem_append, correlation_csv_mem_successWrites d o]
    simp

/-- Witness for C10 at the Scenario-A dataset with default options. -/
theorem report_artifact_writes_witness :
    Ev.writeFile "summary.csv" ∈ reportTrace (some sampleDataset) sampleOpts ∧
    Ev.writeFile "report.md" ∈ reportTrace (some sampleDataset) sampleOpts ∧
    (Ev.writeFile "missing.csv" ∈ reportTrace (some sampleDataset) sampleOpts ↔
      missing_table sampleDataset ≠ []) ∧
    (Ev.writeFile "correlation.csv" ∈ reportTrace (some sampleDataset) sampleOpts ↔
      (correlation_matrix sampleDataset).names ≠ []) :=
  report_artifact_writes sampleDataset sampleOpts (by decide) (by decide)

end Eda
